import Mathlib

/-!
Verification of tyfonas1/react-native-simple-version-update.

The repository ships two implementations of the version-update hook:

* src/unnamed/part_000 — the current hook: a 3-component numeric version
  comparison (normalizeVersion / compareVersions), an iOS iTunes-lookup
  branch and an Android Play-Store-scraping branch with four regex
  patterns tried in priority order, and transport failures rethrown as
  errors.  Embedded below in namespace Part000.
* src/index.ts — an older variant: a dot-stripping lexicographic string
  comparison, a single Android regex, and a catch-all that swallows
  transport failures into a null result.  Embedded below in namespace
  IndexTs.

JavaScript strings are modelled as Lean String (logically a list of
chars); regexes are modelled by a small backtracking engine over an
explicit segment list (Seg), which is expressive enough for the five
concrete regexes in the sources and mirrors leftmost-match, lazy and
greedy quantifier semantics for them.  Network effects are modelled by a
Transport value handed to the lookup functions: either the request
rejected, or a response with an ok flag (2xx status), a statusText and a
decoded body.
-/

/-- Platform selector, mirroring Platform.OS in react-native. -/
inductive Platform where
  | ios
  | android
deriving DecidableEq

/-- Result of one outbound fetch of a body of type β.  `rejected` models the
promise rejecting (network failure; in the iOS branch it also stands for
response.json() throwing on an undecodable payload); `response` carries
response.ok (2xx status), response.statusText and the decoded body. -/
inductive Transport (β : Type) where
  | rejected (msg : String)
  | response (ok : Bool) (statusText : String) (body : β)

/-- The first element of data.results in the iTunes lookup payload:
fields version and trackViewUrl (absent JSON fields are none). -/
structure AppInfo where
  version : Option String
  trackViewUrl : Option String
deriving DecidableEq

/-- Decoded iTunes lookup payload: resultCount and results?.[0]. -/
structure IosBody where
  resultCount : Nat
  firstResult : Option AppInfo
deriving DecidableEq

/-- Return value of getLatestStoreVersion in src/unnamed/part_000:
fields version and url. -/
structure LookupResult where
  version : Option String
  url : Option String
deriving DecidableEq

/-- Observable outcome of one checkForUpdate run in src/unnamed/part_000:
either the error state was set, or liveVersion and needUpdate were set. -/
inductive CheckOutcome where
  | errored (e : String)
  | done (liveVersion : Option String) (needUpdate : Bool)
deriving DecidableEq

/-- Case-sensitive char comparison used by regexes without the i flag. -/
def eqCS (a b : Char) : Bool := a == b

/-- Case-insensitive char comparison used by regexes with the i flag. -/
def eqCI (a b : Char) : Bool := a.toLower == b.toLower

/-- One segment of a regex: a literal, a character-class repetition
(min mn occurrences, lz selects the lazy variant), or the same as the
single capturing group of the pattern. -/
inductive Seg where
  | lit (cs : List Char)
  | cls (p : Char → Bool) (mn : Nat) (lz : Bool)
  | cap (p : Char → Bool) (mn : Nat) (lz : Bool)

/-- Match a literal at the front of the input, returning the rest. -/
def dropLit (eqc : Char → Char → Bool) : List Char → List Char → Option (List Char)
  | [], s => some s
  | _ :: _, [] => none
  | a :: as, c :: cs => if eqc a c then dropLit eqc as cs else none

/-- First some-result of f over a list, in list order. -/
def firstSome {α β : Type} (f : α → Option β) : List α → Option β
  | [] => none
  | a :: t =>
    match f a with
    | some b => some b
    | none => firstSome f t

/-- Candidate repetition counts for a class segment, in the order a
backtracking regex engine tries them: ascending for lazy quantifiers,
descending from the maximal run for greedy ones. -/
def lenOrder (mn mx : Nat) (lz : Bool) : List Nat :=
  let ns := List.range' mn (mx + 1 - mn)
  if lz then ns else ns.reverse

/-- Match a segment list at the front of the input with backtracking,
threading the text captured by the group (acc); returns the capture on
success ([] when no group participated, like an undefined match[1]). -/
def matchSegs (eqc : Char → Char → Bool) : List Seg → List Char → Option (List Char) → Option (List Char)
  | [], _, acc => some (acc.getD [])
  | Seg.lit cs :: rest, s, acc =>
    match dropLit eqc cs s with
    | some s2 => matchSegs eqc rest s2 acc
    | none => none
  | Seg.cls p mn lz :: rest, s, acc =>
    firstSome (fun n => matchSegs eqc rest (s.drop n) acc) (lenOrder mn ((s.takeWhile p).length) lz)
  | Seg.cap p mn lz :: rest, s, _acc =>
    firstSome (fun n => matchSegs eqc rest (s.drop n) (some (s.take n))) (lenOrder mn ((s.takeWhile p).length) lz)

/-- JavaScript String.prototype.match with a non-global regex: try the
pattern at every start position from the left and return the capturing
group of the first match. -/
def runPat (eqc : Char → Char → Bool) (segs : List Seg) (html : String) : Option String :=
  match firstSome (fun i => matchSegs eqc segs (html.data.drop i) none) (List.range (html.data.length + 1)) with
  | some cs => some (String.mk cs)
  | none => none

/-- Character class [\d.-] (also written [\d-.]). -/
def digDotDash (c : Char) : Bool := c.isDigit || c == '.' || c == '-'

/-- Character class [\d.] (also written [0-9.]). -/
def digDot (c : Char) : Bool := c.isDigit || c == '.'

/-- The dot of a regex: any char except a line terminator. -/
def notLineTerm (c : Char) : Bool :=
  !(c == '\n' || c == '\r' || c == Char.ofNat 0x2028 || c == Char.ofNat 0x2029)

/-- Character class [\s\S]: any char. -/
def anyCh (_ : Char) : Bool := true

/-- JavaScript whitespace class \s (WhiteSpace and LineTerminator). -/
def jsSpace (c : Char) : Bool :=
  c == ' ' || c == '\t' || c == '\n' || c == Char.ofNat 11 || c == Char.ofNat 12 ||
  c == '\r' || c == Char.ofNat 0xa0 || c == Char.ofNat 0x1680 ||
  (Char.ofNat 0x2000 ≤ c && c ≤ Char.ofNat 0x200a) ||
  c == Char.ofNat 0x2028 || c == Char.ofNat 0x2029 || c == Char.ofNat 0x202f ||
  c == Char.ofNat 0x205f || c == Char.ofNat 0x3000 || c == Char.ofNat 0xfeff

/-- JavaScript String.prototype.trim: strip whitespace from both ends. -/
def jsTrim (s : String) : String :=
  String.mk (((s.data.dropWhile jsSpace).reverse.dropWhile jsSpace).reverse)

/-- JavaScript `x || null` on an optional string: the empty string is
falsy and collapses to null. -/
def jsOrNull : Option String → Option String
  | some s => if s = "" then none else some s
  | none => none

/-- JavaScript String.prototype.split with a single-char separator:
always returns at least one (possibly empty) part. -/
def splitChars (p : Char → Bool) : List Char → List (List Char)
  | [] => [[]]
  | c :: t =>
    if p c then [] :: splitChars p t
    else
      match splitChars p t with
      | h :: r => (c :: h) :: r
      | [] => [[c]]

/-- parseInt on an all-digit string (the source feeds it only digits,
with the empty string mapped to "0" beforehand). -/
def digitsToNat (cs : List Char) : Nat :=
  cs.foldl (fun n c => 10 * n + (c.toNat - '0'.toNat)) 0

/-- JavaScript relational > on strings: lexicographic by code unit. -/
def strGtChars : List Char → List Char → Bool
  | [], _ => false
  | _ :: _, [] => true
  | a :: as, b :: bs =>
    if a.toNat > b.toNat then true
    else if a.toNat < b.toNat then false
    else strGtChars as bs

namespace Part000

/-- From src/unnamed/part_000 lines 37-47: split on ".", strip non-digit
characters from each part, parse (empty part becomes 0), pad with three
zeros and keep the first 3 components. -/
def normalizeVersion (version : String) : List Nat :=
  (((splitChars (fun c => c == '.') version.data).map
      (fun (part : List Char) => digitsToNat (part.filter Char.isDigit))) ++ [0, 0, 0]).take 3

/-- The for-loop of compareVersions (src/unnamed/part_000 lines 52-59):
walk the two (always length-3) component lists in parallel; return true
at the first strictly greater component of latest, false at the first
strictly smaller one, and false when the loop ends. -/
def cmpLoop : List Nat → List Nat → Bool
  | a :: as, b :: bs =>
    if a > b then true
    else if a < b then false
    else cmpLoop as bs
  | _, _ => false

/-- From src/unnamed/part_000 lines 36-62: true iff latestVersion is
greater than currentVersion under the normalized numeric comparison. -/
def compareVersions (latestVersion currentVersion : String) : Bool :=
  let latest := normalizeVersion latestVersion
  let current := normalizeVersion currentVersion
  cmpLoop latest current

/-- Pattern (a): Current Version.+?>([\d.-]+)<\/span> -/
def patA : List Seg :=
  [Seg.lit "Current Version".data, Seg.cls notLineTerm 1 true, Seg.lit ">".data,
   Seg.cap digDotDash 1 false, Seg.lit "</span>".data]

/-- Pattern (b): \[\[\["([\d-.]+?)"\]\] -/
def patB : List Seg :=
  [Seg.lit "[[[\"".data, Seg.cap digDotDash 1 true, Seg.lit "\"]]".data]

/-- Pattern (c): "versionName":"([\d.]+)" -/
def patC : List Seg :=
  [Seg.lit "\"versionName\":\"".data, Seg.cap digDot 1 false, Seg.lit "\"".data]

/-- Pattern (d): Version[\s\S]*?([\d.]+) with the i flag. -/
def patD : List Seg :=
  [Seg.lit "Version".data, Seg.cls anyCh 0 true, Seg.cap digDot 1 false]

/-- The ordered pattern array of src/unnamed/part_000 lines 102-107,
each with its char-comparison mode (only pattern (d) has the i flag). -/
def patterns : List ((Char → Char → Bool) × List Seg) :=
  [(eqCS, patA), (eqCS, patB), (eqCS, patC), (eqCI, patD)]

/-- The for-of loop of src/unnamed/part_000 lines 109-115: take the
first pattern whose match has a truthy capturing group, and trim it. -/
def tryPatterns : List ((Char → Char → Bool) × List Seg) → String → Option String
  | [], _ => none
  | (e, segs) :: ps, html =>
    match runPat e segs html with
    | some s => if s = "" then tryPatterns ps html else some (jsTrim s)
    | none => tryPatterns ps html

/-- The iOS lookup endpoint of src/unnamed/part_000 line 75. -/
def iosLookupUrl (bundleId : String) : String :=
  "https://itunes.apple.com/lookup?bundleId=" ++ bundleId

/-- The Android lookup endpoint of src/unnamed/part_000 lines 91-92,
with the fixed locale parameters. -/
def androidLookupUrl (bundleId : String) : String :=
  "https://play.google.com/store/apps/details?id=" ++ bundleId ++ "&hl=en&gl=US"

/-- The canonical store URL returned for Android
(src/unnamed/part_000 line 119): built from the bundle id alone. -/
def androidCanonicalUrl (bundleId : String) : String :=
  "https://play.google.com/store/apps/details?id=" ++ bundleId

/-- The iOS branch of getLatestStoreVersion (src/unnamed/part_000 lines
74-88 with the catch of lines 125-128): a rejected request or non-ok
status is rethrown as an error; a positive resultCount with a first
result yields its version and trackViewUrl (JavaScript || null applied);
otherwise the absent result of line 124 is returned. -/
def iosLookup (t : Transport IosBody) : Except String LookupResult :=
  match t with
  | Transport.rejected m =>
    Except.error ("Error fetching the latest version: " ++ m)
  | Transport.response ok st b =>
    if ok then
      if b.resultCount > 0 then
        match b.firstResult with
        | some a => Except.ok ⟨jsOrNull a.version, jsOrNull a.trackViewUrl⟩
        | none => Except.ok ⟨none, none⟩
      else Except.ok ⟨none, none⟩
    else Except.error ("Error fetching the latest version: Failed to fetch iOS app info: " ++ st)

/-- The Android branch of getLatestStoreVersion (src/unnamed/part_000
lines 89-121 with the catch of lines 125-128): a rejected request or
non-ok status is rethrown as an error; otherwise the pattern chain is
run on the body and the canonical URL is always populated. -/
def androidLookup (bundleId : String) (t : Transport String) : Except String LookupResult :=
  match t with
  | Transport.rejected m =>
    Except.error ("Error fetching the latest version: " ++ m)
  | Transport.response ok st html =>
    if ok then
      Except.ok ⟨tryPatterns patterns html, some (androidCanonicalUrl bundleId)⟩
    else Except.error ("Error fetching the latest version: Failed to fetch Android app info: " ++ st)

/-- getLatestStoreVersion of src/unnamed/part_000 lines 67-129: dispatch
on Platform.OS.  The Transport arguments are the outcomes the two
possible fetches would have; only the selected branch consumes one. -/
def getLatestStoreVersion (os : Platform) (bundleId : String)
    (tIos : Transport IosBody) (tAndroid : Transport String) : Except String LookupResult :=
  match os with
  | Platform.ios => iosLookup tIos
  | Platform.android => androidLookup bundleId tAndroid

/-- checkForUpdate of src/unnamed/part_000 lines 134-164, as a function
of the resolver outcome: an error is caught and stored in the error
state; a truthy version sets liveVersion and needUpdate from
compareVersions; otherwise liveVersion is cleared and needUpdate is
false. -/
def checkForUpdate (appVersion : String) (lookup : Except String LookupResult) : CheckOutcome :=
  match lookup with
  | Except.error e => CheckOutcome.errored e
  | Except.ok r =>
    match r.version with
    | some lv =>
      if lv = "" then CheckOutcome.done none false
      else CheckOutcome.done (some lv) (compareVersions lv appVersion)
    | none => CheckOutcome.done none false

end Part000

namespace IndexTs

/-- From src/index.ts lines 67-71: remove every "." from both raw
strings and compare them with the JavaScript string > operator
(lexicographic by code unit). -/
def compareVersions (latestVersion currentV : String) : Bool :=
  strGtChars (latestVersion.data.filter (fun c => !(c == '.')))
    (currentV.data.filter (fun c => !(c == '.')))

/-- The single Android regex of src/index.ts lines 49-50:
<div[^>]*>\s*Current\s+Version\s*<\/div>\s*<span[^>]*>\s*([0-9.]+)\s*<\/span> -/
def currentVersionRegex : List Seg :=
  [Seg.lit "<div".data, Seg.cls (fun c => !(c == '>')) 0 false, Seg.lit ">".data,
   Seg.cls jsSpace 0 false, Seg.lit "Current".data, Seg.cls jsSpace 1 false,
   Seg.lit "Version".data, Seg.cls jsSpace 0 false, Seg.lit "</div>".data,
   Seg.cls jsSpace 0 false, Seg.lit "<span".data, Seg.cls (fun c => !(c == '>')) 0 false,
   Seg.lit ">".data, Seg.cls jsSpace 0 false, Seg.cap digDot 1 false,
   Seg.cls jsSpace 0 false, Seg.lit "</span>".data]

/-- getLatestStoreVersion of src/index.ts lines 31-65.  There is no
response.ok check; any thrown error (including a rejected fetch) is
caught at lines 61-64 and turned into null.  Accessing results[0] of an
empty results array throws and is likewise caught, hence none. -/
def getLatestStoreVersion (os : Platform)
    (tIos : Transport IosBody) (tAndroid : Transport String) : Option String :=
  match os with
  | Platform.ios =>
    match tIos with
    | Transport.rejected _ => none
    | Transport.response _ _ b =>
      if b.resultCount > 0 then
        match b.firstResult with
        | some a => a.version
        | none => none
      else none
  | Platform.android =>
    match tAndroid with
    | Transport.rejected _ => none
    | Transport.response _ _ html =>
      match runPat eqCS currentVersionRegex html with
      | some s => if s = "" then none else some s
      | none => none

/-- The update decision of src/index.ts lines 20-22: needUpdate is set
only when a truthy latest version compares greater; a null lookup result
leaves it false, with no error surfaced to the caller. -/
def checkNeedUpdate (appVersion : String) (latest : Option String) : Bool :=
  match latest with
  | some lv => if lv = "" then false else compareVersions lv appVersion
  | none => false

end IndexTs

/-- Specification-side comparison rule (section 4.1 of the spec): at the
first index where the two component lists differ, return whether the
left component is greater; if no index differs, return false. -/
def firstDiffCmp : List Nat → List Nat → Bool
  | a :: as, b :: bs =>
    if a = b then firstDiffCmp as bs
    else decide (a > b)
  | _, _ => false

/-- Whether a list of chars starts with the given needle. -/
def startsWithChars : List Char → List Char → Bool
  | [], _ => true
  | _ :: _, [] => false
  | a :: as, b :: bs => if a = b then startsWithChars as bs else false

/-- Whether the needle occurs as a contiguous substring. -/
def containsChars (n : List Char) : List Char → Bool
  | [] => startsWithChars n []
  | c :: t => startsWithChars n (c :: t) || containsChars n t

/-- Whether the needle occurs as a contiguous substring of s. -/
def containsStr (needle s : String) : Bool := containsChars needle.data s.data

/-- The constant part of the Play Store URLs, in front of the app id. -/
def storePreChars : List Char := "https://play.google.com/store/apps/details?id=".data

/-- A segment is the capturing group. -/
def segHasCap : Seg → Bool
  | Seg.cap _ _ _ => true
  | _ => false

/-- A capturing-group segment requires at least one char. -/
def segCapMin1 : Seg → Bool
  | Seg.cap _ mn _ => decide (1 ≤ mn)
  | _ => true

/-- A concrete Android body on which pattern (a) matches 1.2.3 and
pattern (c) matches 9.9.9. -/
def c4Html : String := "Current Versionx>1.2.3</span> \"versionName\":\"9.9.9\""

/-- The first some-result of f comes from some element of the list. -/
theorem firstSome_eq_some {α β : Type} {f : α → Option β} {l : List α} {b : β}
    (h : firstSome f l = some b) : ∃ a, a ∈ l ∧ f a = some b := by
  induction l with
  | nil => exact absurd h (by simp [firstSome])
  | cons x t ih =>
    cases hx : f x with
    | some y =>
      have hx2 : firstSome f (x :: t) = some y := by simp [firstSome, hx]
      rw [hx2] at h
      exact ⟨x, by simp, by rw [hx, h]⟩
    | none =>
      have hx2 : firstSome f (x :: t) = firstSome f t := by simp [firstSome, hx]
      rw [hx2] at h
      obtain ⟨a, ha, hf⟩ := ih h
      exact ⟨a, by simp [ha], hf⟩

/-- The length of a takeWhile run is at most the length of the list. -/
theorem takeWhile_len_le (p : Char → Bool) : ∀ l : List Char, (l.takeWhile p).length ≤ l.length := by
  intro l
  induction l with
  | nil => simp
  | cons c t ih =>
    by_cases h : p c = true
    · simp only [List.takeWhile, h, List.length_cons]
      omega
    · simp [List.takeWhile, h]

/-- A take of at least one element of a long-enough list is nonempty. -/
theorem take_ne_nil (s : List Char) (n : Nat) (h1 : 1 ≤ n) (h2 : n ≤ s.length) :
    s.take n ≠ [] := by
  cases s with
  | nil => simp at h2; omega
  | cons c t =>
    cases n with
    | zero => omega
    | succ k => simp

/-- Membership in lenOrder is membership in the underlying range. -/
theorem mem_lenOrder {n mn mx : Nat} {lz : Bool} (h : n ∈ lenOrder mn mx lz) :
    mn ≤ n ∧ n ≤ mx := by
  have hr : n ∈ List.range' mn (mx + 1 - mn) := by
    cases lz <;> simpa [lenOrder, List.mem_reverse] using h
  have := List.mem_range'_1.mp hr
  omega

/-- A successful segment match whose pattern has a capturing group of
minimum length 1 (or that started with a nonempty capture accumulator)
returns a nonempty capture. -/
theorem matchSegs_some_ne_nil (eqc : Char → Char → Bool) :
    ∀ (segs : List Seg) (s : List Char) (acc : Option (List Char)) (out : List Char),
      matchSegs eqc segs s acc = some out →
      segs.all segCapMin1 = true →
      (segs.any segHasCap = true ∨ ∃ cs, acc = some cs ∧ cs ≠ []) →
      out ≠ [] := by
  intro segs
  induction segs with
  | nil =>
    intro s acc out h _ hcap
    cases hcap with
    | inl h1 => simp at h1
    | inr h2 =>
      obtain ⟨cs, rfl, hne⟩ := h2
      have : cs = out := by simpa [matchSegs] using h
      rw [← this]
      exact hne
  | cons seg rest ih =>
    intro s acc out h hall hcap
    rw [List.all_cons, Bool.and_eq_true] at hall
    cases seg with
    | lit cs =>
      simp only [matchSegs] at h
      cases hd : dropLit eqc cs s with
      | some s2 =>
        rw [hd] at h
        refine ih s2 acc out h hall.2 ?_
        simpa [segHasCap] using hcap
      | none => rw [hd] at h; exact absurd h (by simp)
    | cls p mn lz =>
      simp only [matchSegs] at h
      obtain ⟨n, _, hm⟩ := firstSome_eq_some h
      refine ih _ acc out hm hall.2 ?_
      simpa [segHasCap] using hcap
    | cap p mn lz =>
      simp only [matchSegs] at h
      obtain ⟨n, hn, hm⟩ := firstSome_eq_some h
      have hmn : 1 ≤ mn := by
        have := hall.1
        simpa [segCapMin1] using this
      obtain ⟨h1, h2⟩ := mem_lenOrder hn
      refine ih _ _ out hm hall.2 (Or.inr ⟨s.take n, rfl, ?_⟩)
      exact take_ne_nil s n (le_trans hmn h1) (le_trans h2 (takeWhile_len_le p s))

/-- A successful run of a pattern with a mandatory capturing group
returns a nonempty string (so the truthiness guard on match[1] passes). -/
theorem runPat_some_ne_empty (eqc : Char → Char → Bool) (segs : List Seg) (html str : String)
    (h : runPat eqc segs html = some str)
    (hall : segs.all segCapMin1 = true) (hany : segs.any segHasCap = true) :
    str ≠ "" := by
  unfold runPat at h
  cases hf : firstSome (fun i => matchSegs eqc segs (html.data.drop i) none)
      (List.range (html.data.length + 1)) with
  | none => rw [hf] at h; exact absurd h (by simp)
  | some cs =>
    rw [hf] at h
    obtain ⟨i, _, hm⟩ := firstSome_eq_some hf
    have hne := matchSegs_some_ne_nil eqc segs _ none cs hm hall (Or.inl hany)
    have hstr : str = String.mk cs := (Option.some.inj h).symm
    rw [hstr]
    intro e
    exact hne (by simpa using congrArg String.data e)

/-- The source loop and the specification comparison rule agree. -/
theorem cmpLoop_eq_firstDiffCmp : ∀ (x y : List Nat), Part000.cmpLoop x y = firstDiffCmp x y := by
  intro x
  induction x with
  | nil => intro y; cases y <;> rfl
  | cons a as ih =>
    intro y
    cases y with
    | nil => rfl
    | cons b bs =>
      rcases Nat.lt_trichotomy a b with h | h | h
      · simp [Part000.cmpLoop, firstDiffCmp, h, Nat.lt_asymm h, Nat.ne_of_lt h]
      · subst h
        simp [Part000.cmpLoop, firstDiffCmp, ih]
      · simp [Part000.cmpLoop, firstDiffCmp, h, ne_of_gt h]

/-- The source loop is irreflexive. -/
theorem cmpLoop_self : ∀ l : List Nat, Part000.cmpLoop l l = false := by
  intro l
  induction l with
  | nil => rfl
  | cons a as ih => simp [Part000.cmpLoop, ih]

/-- The needle "hl=" never appears in the constant URL part, nor across
the boundary between it and an id that does not contain it. -/
theorem hl_not_in_pre_append (l : List Char) (h : containsChars ['h', 'l', '='] l = false) :
    containsChars ['h', 'l', '='] (storePreChars ++ l) = false := by
  rw [show storePreChars =
    ['h','t','t','p','s',':','/','/','p','l','a','y','.','g','o','o','g','l','e','.','c','o','m','/','s','t','o','r','e','/','a','p','p','s','/','d','e','t','a','i','l','s','?','i','d','='] from rfl]
  simp [containsChars, startsWithChars, h]

/-- The needle "gl=" never appears in the constant URL part, nor across
the boundary between it and an id that does not contain it. -/
theorem gl_not_in_pre_append (l : List Char) (h : containsChars ['g', 'l', '='] l = false) :
    containsChars ['g', 'l', '='] (storePreChars ++ l) = false := by
  rw [show storePreChars =
    ['h','t','t','p','s',':','/','/','p','l','a','y','.','g','o','o','g','l','e','.','c','o','m','/','s','t','o','r','e','/','a','p','p','s','/','d','e','t','a','i','l','s','?','i','d','='] from rfl]
  simp [containsChars, startsWithChars, h]

/-- C1: compareVersions normalizes both version strings to 3-component
integer lists and compares component-wise in order; at the first index
where the components differ it returns whether the latest component is
greater, and when the normalized tuples are equal it returns false. -/
theorem c1_componentwise_order :
    ∀ (latestVersion currentVersion : String),
      Part000.compareVersions latestVersion currentVersion
        = firstDiffCmp (Part000.normalizeVersion latestVersion)
            (Part000.normalizeVersion currentVersion)
      ∧ (Part000.normalizeVersion latestVersion = Part000.normalizeVersion currentVersion →
          Part000.compareVersions latestVersion currentVersion = false) := by
  intro lv cv
  constructor
  · exact cmpLoop_eq_firstDiffCmp _ _
  · intro h
    show Part000.cmpLoop _ _ = false
    rw [h]
    exact cmpLoop_self _

/-- Witness for C1 at the concrete pair ("1.2.3", "1.2.3"): equal
versions never trigger an update. -/
theorem c1_componentwise_order_witness :
    Part000.compareVersions "1.2.3" "1.2.3" = false :=
  (c1_componentwise_order "1.2.3" "1.2.3").2 rfl

/-- C2: the comparison of src/unnamed/part_000 is numeric per component
(it agrees with the first-differing-component rule on normalized
integers for all inputs) and returns true on ("1.10.0", "1.9.0"),
whereas the shipped src/index.ts comparator is lexicographic on the
dot-stripped raw strings and returns false there. -/
theorem c2_numeric_not_lexicographic :
    Part000.compareVersions "1.10.0" "1.9.0" = true
    ∧ IndexTs.compareVersions "1.10.0" "1.9.0" = false
    ∧ (∀ (lv cv : String),
        Part000.compareVersions lv cv
          = firstDiffCmp (Part000.normalizeVersion lv) (Part000.normalizeVersion cv)) :=
  ⟨by decide, by decide, fun _ _ => cmpLoop_eq_firstDiffCmp _ _⟩

/-- C3: in src/unnamed/part_000 a rejected request or a non-2xx response
on either branch becomes an error value propagated to the caller, and
checkForUpdate surfaces it as the errored outcome; in src/index.ts the
same failures are swallowed into a null lookup, which the caller treats
as needUpdate = false with no error. -/
theorem c3_transport_failure_not_silent :
    ∀ (m st id app e html : String) (b : IosBody),
      Part000.iosLookup (Transport.rejected m)
          = Except.error ("Error fetching the latest version: " ++ m)
      ∧ Part000.androidLookup id (Transport.rejected m)
          = Except.error ("Error fetching the latest version: " ++ m)
      ∧ Part000.iosLookup (Transport.response false st b)
          = Except.error ("Error fetching the latest version: Failed to fetch iOS app info: " ++ st)
      ∧ Part000.androidLookup id (Transport.response false st html)
          = Except.error ("Error fetching the latest version: Failed to fetch Android app info: " ++ st)
      ∧ Part000.checkForUpdate app (Except.error e) = CheckOutcome.errored e
      ∧ IndexTs.getLatestStoreVersion Platform.ios (Transport.rejected m) (Transport.rejected m) = none
      ∧ IndexTs.getLatestStoreVersion Platform.android (Transport.rejected m) (Transport.rejected m) = none
      ∧ IndexTs.checkNeedUpdate app none = false := by
  intro m st id app e html b
  exact ⟨rfl, rfl, rfl, rfl, rfl, rfl, rfl, rfl⟩

/-- C4: the Android resolver tries its patterns in fixed priority order
and returns the first match; whenever pattern (a) and pattern (c) both
match a body with different values, the resolver returns the value of
pattern (a). -/
theorem c4_pattern_priority :
    ∀ (html va vc id st : String),
      runPat eqCS Part000.patA html = some va →
      runPat eqCS Part000.patC html = some vc →
      va ≠ vc →
      Part000.tryPatterns Part000.patterns html = some (jsTrim va)
      ∧ Part000.androidLookup id (Transport.response true st html)
          = Except.ok ⟨some (jsTrim va), some (Part000.androidCanonicalUrl id)⟩ := by
  intro html va vc id st hA hC hne
  have hva : va ≠ "" := runPat_some_ne_empty eqCS Part000.patA html va hA (by rfl) (by rfl)
  have hmain : Part000.tryPatterns Part000.patterns html = some (jsTrim va) := by
    simp only [Part000.patterns, Part000.tryPatterns, hA, if_neg hva]
  exact ⟨hmain, by simp [Part000.androidLookup, hmain]⟩

/-- Witness for C4 on a concrete body where pattern (a) yields 1.2.3 and
pattern (c) yields 9.9.9: the resolver reports 1.2.3. -/
theorem c4_pattern_priority_witness :
    Part000.tryPatterns Part000.patterns c4Html = some "1.2.3"
    ∧ Part000.androidLookup "com.app" (Transport.response true "OK" c4Html)
        = Except.ok ⟨some "1.2.3", some (Part000.androidCanonicalUrl "com.app")⟩ := by
  have h := c4_pattern_priority c4Html "1.2.3" "9.9.9" "com.app" "OK"
    (by decide) (by decide) (by decide)
  exact ⟨h.1, h.2⟩

/-- C5: normalization always yields exactly 3 components (each a Nat, so
non-negative); "2.0" right-pads to [2, 0, 0] and compares above
"1.9.9". -/
theorem c5_normalize_three_components :
    (∀ v : String, (Part000.normalizeVersion v).length = 3)
    ∧ Part000.normalizeVersion "2.0" = [2, 0, 0]
    ∧ Part000.compareVersions "2.0" "1.9.9" = true := by
  refine ⟨?_, by decide, by decide⟩
  intro v
  simp [Part000.normalizeVersion]

/-- C6: an ok iOS response with resultCount = 0, or with no first
result, yields the absent lookup result (no version, no URL) and no
error. -/
theorem c6_ios_zero_results_absent :
    ∀ (st st2 : String) (r : Option AppInfo) (n : Nat),
      Part000.iosLookup (Transport.response true st ⟨0, r⟩) = Except.ok ⟨none, none⟩
      ∧ Part000.iosLookup (Transport.response true st2 ⟨n, none⟩) = Except.ok ⟨none, none⟩ := by
  intro st st2 r n
  constructor
  · rfl
  · by_cases h : 0 < n <;> simp [Part000.iosLookup, h]

/-- C7: for every ok Android response the lookup returns the canonical
store URL built from the app identifier alone, whether or not any
pattern matched; the lookup endpoint is the canonical URL plus the
locale suffix, and the canonical URL contains no hl= or gl= parameter
when the identifier itself contains none. -/
theorem c7_android_canonical_url :
    ∀ (id st html : String),
      Part000.androidLookup id (Transport.response true st html)
        = Except.ok ⟨Part000.tryPatterns Part000.patterns html, some (Part000.androidCanonicalUrl id)⟩
      ∧ Part000.androidCanonicalUrl id = "https://play.google.com/store/apps/details?id=" ++ id
      ∧ Part000.androidLookupUrl id = Part000.androidCanonicalUrl id ++ "&hl=en&gl=US"
      ∧ (containsStr "hl=" id = false → containsStr "hl=" (Part000.androidCanonicalUrl id) = false)
      ∧ (containsStr "gl=" id = false → containsStr "gl=" (Part000.androidCanonicalUrl id) = false) := by
  intro id st html
  refine ⟨rfl, rfl, rfl, ?_, ?_⟩
  · intro h
    obtain ⟨l⟩ := id
    exact hl_not_in_pre_append l h
  · intro h
    obtain ⟨l⟩ := id
    exact gl_not_in_pre_append l h

/-- Witness for C7 at identifier "com.example.app" and a body without
any pattern match: version absent, URL populated and locale-free. -/
theorem c7_android_canonical_url_witness :
    Part000.androidLookup "com.example.app" (Transport.response true "OK" "hello")
      = Except.ok ⟨none, some (Part000.androidCanonicalUrl "com.example.app")⟩
    ∧ containsStr "hl=" (Part000.androidCanonicalUrl "com.example.app") = false
    ∧ containsStr "gl=" (Part000.androidCanonicalUrl "com.example.app") = false := by
  have h := c7_android_canonical_url "com.example.app" "OK" "hello"
  exact ⟨h.1, h.2.2.2.1 (by decide), h.2.2.2.2 (by decide)⟩

/-- C8: the comparison is total (always returns a boolean, for any pair
of strings); a component without digits parses to 0 after stripping, so
"1.x.0" normalizes to [1, 0, 0]; and a non-numeric suffix is stripped,
so "1.2.3-beta" compares above "1.2.2". -/
theorem c8_total_and_lenient :
    (∀ (lv cv : String),
      Part000.compareVersions lv cv = true ∨ Part000.compareVersions lv cv = false)
    ∧ (∀ (part : List Char), (∀ c ∈ part, c.isDigit = false) →
        digitsToNat (part.filter Char.isDigit) = 0)
    ∧ Part000.normalizeVersion "1.x.0" = [1, 0, 0]
    ∧ Part000.compareVersions "1.2.3-beta" "1.2.2" = true := by
  refine ⟨?_, ?_, by decide, by decide⟩
  · intro lv cv
    cases hb : Part000.compareVersions lv cv
    · exact Or.inr rfl
    · exact Or.inl rfl
  · intro part h
    have hf : part.filter Char.isDigit = [] := by
      apply List.filter_eq_nil_iff.mpr
      intro a ha
      simp [h a ha]
    rw [hf]
    rfl

/-- Witness for C8 at the digit-free component "x": it parses to 0. -/
theorem c8_total_and_lenient_witness :
    digitsToNat (['x'].filter Char.isDigit) = 0 :=
  c8_total_and_lenient.2.1 ['x'] (by decide)

/-- C9 counterexample: the two shipped comparators disagree at the pair
("1.10.0", "1.9.0"), so they do not compute the same function. -/
theorem c9_comparators_disagree :
    ¬ (IndexTs.compareVersions "1.10.0" "1.9.0"
        = Part000.compareVersions "1.10.0" "1.9.0") := by
  decide

/-- C9 (amended): the two shipped comparator implementations do not
compute the same function: at ("1.10.0", "1.9.0") the dot-stripping
lexicographic comparator of src/index.ts returns false while the
numeric comparator of src/unnamed/part_000 returns true. -/
theorem c9_not_same_function :
    IndexTs.compareVersions "1.10.0" "1.9.0" = false
    ∧ Part000.compareVersions "1.10.0" "1.9.0" = true := by
  exact ⟨by decide, by decide⟩

/-- C10: the numeric comparator is irreflexive on every string, however
malformed: compareVersions v v is always false. -/
theorem c10_irreflexive : ∀ v : String, Part000.compareVersions v v = false :=
  fun v => cmpLoop_self (Part000.normalizeVersion v)
